import Mathlib

/-!
# Verification of the Comfy-Gen-Server workflow compiler and submission queue

Shallow embedding of `src/web-src/src/scripts/app.ts`:

* the prompt compiler `graphToPrompt` (lines 1083-1221): widget serialization,
  link resolution with the virtual/muted bypass loop, and the dangling-reference
  cleanup pass;
* the submission queue `queuePrompt` (lines 1255-1323): pending list with
  `push`/`pop`, the `#processingQueue` single-flight flag with its
  `finally`-style release, per-batch-unit submission, error recording and
  batch abort, and the `afterQueued` widget callbacks;
* the load-time type normalization of `loadGraphData` (lines 969-980) together
  with `sanitizeNodeName` (lines 29-42);
* `registerExtension` (lines 1433-1441).

JavaScript numbers indexing slots are modeled as `Nat`; node ids as `Nat`
(stringified with `toString` where the source calls `String(...)`); JavaScript
objects used as ordered string-keyed maps are modeled as association lists with
insert-or-replace semantics (`objInsert`).  Asynchronous calls are suspension
points only; the drain loop is single-owner, so the semantics is the obvious
sequential one with externally chosen arrival points (see `drainLoop`).
-/

/-- A widget / literal input value.  Per the data model (§3 of the spec and the
`ComfyWidget` type), widget values are strings, numbers, booleans or
enumerated choices — never arrays, so the cleanup pass's `Array.isArray`
test identifies exactly the reference pairs. -/
inductive JVal where
  | num (n : Int)
  | str (s : String)
  | bool (b : Bool)
  | null
deriving DecidableEq

/-- A compiled input entry: either a literal value or a `[originId, slot]`
reference pair (the source stores the pair as a two-element array
`[String(link.origin_id), parseInt(link.origin_slot)]`). -/
inductive InV where
  | val (v : JVal)
  | ref (originId : String) (slot : Nat)
deriving DecidableEq

/-- One compiled step of the prompt: `{ class_type, inputs, _meta?.title }`
(`WorkflowStep` in `src/web-src/src/types/many`). -/
structure WorkflowStep where
  class_type : String
  inputs : List (String × InV)
  meta : Option String
deriving DecidableEq

/-- Insert-or-replace for a JavaScript object used as a string-keyed map:
assigning to an existing key keeps its position, a new key is appended. -/
def objInsert {α : Type} (l : List (String × α)) (k : String) (v : α) : List (String × α) :=
  if l.any (fun p => p.1 = k) then
    l.map (fun p => if p.1 = k then (k, v) else p)
  else
    l ++ [(k, v)]

/-- A LiteGraph link: directed edge `origin node/slot → target node/slot`. -/
structure LinkM where
  origin_id : Nat
  origin_slot : Nat
  target_id : Nat
  target_slot : Nat
deriving DecidableEq

/-- An input slot of a node: declared name and type, and the id of the single
incoming link, if any (a target input slot has at most one incoming link). -/
structure InputSlotM where
  name : String
  type : String
  link : Option Nat
deriving DecidableEq

/-- A widget of a node.  `serialize` is `options.serialize !== false`;
`serializeValue`, when present, is the value produced by the widget's
serialization hook (the hook is pure in this embedding); `beforeQueued`,
when present, is the pre-queue callback's effect on the widget's own value
(e.g. re-randomizing a seed before every generation). -/
structure WidgetM where
  name : String
  value : JVal
  serialize : Bool
  serializeValue : Option JVal
  beforeQueued : Option (JVal → JVal)

/-- A node of the editor graph.  `mode` is the LiteGraph execution mode
(0 normal, 2 never, 4 bypassed/muted); `updateLink`, when present, is the
group-node link-rewriting capability consulted after the bypass loop. -/
structure NodeM where
  id : Nat
  comfyClass : String
  title : String
  mode : Nat
  isVirtualNode : Bool
  inputs : List InputSlotM
  widgets : List WidgetM
  updateLink : Option (LinkM → Option LinkM)

/-- The graph: nodes plus the link table (`graph.links` keyed by link id).
The node list is also the execution order used by the compiler; the
execution-order collaborator (`computeExecutionOrder`, LiteGraph side, not
part of this repository's sources) is modeled from the spec as a
deterministic stable ordering, here the stored order itself. -/
structure GraphM where
  nodes : List NodeM
  links : List (Nat × LinkM)

/-- `graph.getNodeById(id)`. -/
def getNodeById (g : GraphM) (i : Nat) : Option NodeM :=
  g.nodes.find? (fun n => n.id = i)

/-- `graph.links[lid]`. -/
def getLinkById (g : GraphM) (lid : Nat) : Option LinkM :=
  (g.links.find? (fun p => p.1 = lid)).map Prod.snd

/-- `node.getInputLink(slot)`: the link object incoming at the given input
slot, or null. -/
def getInputLink (g : GraphM) (n : NodeM) (i : Nat) : Option LinkM :=
  (n.inputs.get? i).bind (fun s => s.link.bind (getLinkById g))

/-- `node.getInputNode(slot)`: the origin node of the link incoming at the
given input slot, or null. -/
def getInputNode (g : GraphM) (n : NodeM) (i : Nat) : Option NodeM :=
  (getInputLink g n i).bind (fun l => getNodeById g l.origin_id)

/-- `sanitizeNodeName` (app.ts lines 29-42): deletes the characters
`& < > " ' (backquote) =` (codepoints 38, 60, 62, 34, 39, 96, 61). -/
def sanitizeNodeName (s : String) : String :=
  ⟨s.data.filter (fun c =>
    ¬(c.toNat = 38 ∨ c.toNat = 60 ∨ c.toNat = 62 ∨ c.toNat = 34 ∨
      c.toNat = 39 ∨ c.toNat = 96 ∨ c.toNat = 61))⟩

/-- The legacy type remaps of `loadGraphData` (app.ts lines 970-973), applied
in source order. -/
def remapType (t0 : String) : String :=
  let t1 := if t0 = "T2IAdapterLoader" then "ControlNetLoader" else t0
  let t2 := if t1 = "ConditioningAverage " then "ConditioningAverage" else t1
  if t2 = "SDV_img2vid_Conditioning" then "SVD_img2vid_Conditioning" else t2

/-- Full per-node type normalization of `loadGraphData` (lines 969-980):
legacy remap, then — if the resulting type is not registered — the node is
kept with the sanitized placeholder type. -/
def normalizeType (registered : String → Bool) (t : String) : String :=
  let t3 := remapType t
  if registered t3 then t3 else sanitizeNodeName t3

/-- A node entry of a serialized graph document (only the field the
normalization pass touches). -/
structure LoadedNode where
  type : String
deriving DecidableEq

/-- A serialized graph document (`graphData`). -/
structure GraphDoc where
  nodes : List LoadedNode
deriving DecidableEq

/-- The normalization stage of `loadGraphData` (lines 969-980): rewrites every
node's type and collects the missing (post-remap) type names.  The returned
document is the one subsequently handed to `graph.configure`, so every
downstream consumer (resolution, execution-order computation) sees canonical
names. -/
def loadGraphData (registered : String → Bool) (doc : GraphDoc) :
    GraphDoc × List String :=
  (⟨doc.nodes.map (fun n => ⟨normalizeType registered n.type⟩)⟩,
   doc.nodes.filterMap (fun n =>
     let t3 := remapType n.type
     if registered t3 then none else some t3))

/-- A registered web extension (only the field `registerExtension` reads). -/
structure ComfyExtensionM where
  name : Option String
deriving DecidableEq

/-- `registerExtension` (app.ts lines 1433-1441).  Returns the updated
extension list and the thrown error message, if any; the JavaScript `throw`
leaves `this.extensions` untouched.  `!extension.name` is the JavaScript
falsiness test: the property is absent or the empty string. -/
def registerExtension (exts : List ComfyExtensionM) (ext : ComfyExtensionM) :
    List ComfyExtensionM × Option String :=
  if ext.name = none ∨ ext.name = some "" then
    (exts, some "Extensions must have a 'name' property.")
  else if (exts.find? (fun e => e.name = ext.name)).isSome then
    (exts, some "Extension already registered.")
  else
    (exts ++ [ext], none)

/-- The candidate scan of the muted-node bypass (app.ts lines 1153-1166):
`all_inputs = [link.origin_slot].concat(Object.keys(parent.inputs))`, and the
first candidate index whose declared input type equals the type of the slot
being resolved wins — i.e. the slot at the same index as the bypassed link is
preferred, else the first type match in declaration order. -/
def findBypassSlot (parent : NodeM) (ty : String) (originSlot : Nat) : Option Nat :=
  (originSlot :: List.range parent.inputs.length).find?
    (fun c =>
      match parent.inputs.get? c with
      | some s => s.type == ty
      | none => false)

/-- Result of the `while (parent.mode === 4 || parent.isVirtualNode)` loop
(app.ts lines 1142-1173).  `done parent link` is a normal exit with the final
values of the two loop variables (either may be null); `fuelOut` means the
loop was still running when the modeling fuel ran out (the source has no
iteration bound); `crash` marks the states where the JavaScript would throw a
`TypeError` (reading a property of null). -/
inductive BypassResult where
  | done (parent : Option NodeM) (link : Option LinkM)
  | fuelOut
  | crash

/-- The bypass loop itself, one fuel unit per iteration.  `ty` is
`node.inputs[i].type` of the node being compiled — fixed for the whole loop. -/
def bypassLoop (g : GraphM) (ty : String) : Nat → Option NodeM → Option LinkM → BypassResult
  | _, none, _ => BypassResult.crash
  | 0, some _, _ => BypassResult.fuelOut
  | fuel+1, some parent, link =>
    if parent.mode = 4 ∨ parent.isVirtualNode then
      if parent.isVirtualNode then
        -- virtual: follow the node's internal input-to-output mapping
        match link with
        | none => BypassResult.crash
        | some l =>
          match getInputLink g parent l.origin_slot with
          | none => BypassResult.done (some parent) none
          | some l2 =>
            match getInputNode g parent l2.target_slot with
            | none => BypassResult.done none (some l2)
            | some p2 => bypassLoop g ty fuel (some p2) (some l2)
      else
        -- muted: re-resolve through a type-compatible input of the muted node
        match link with
        | none => BypassResult.done (some parent) none
        | some l =>
          match findBypassSlot parent ty l.origin_slot with
          | none => BypassResult.done (some parent) (some l)
          | some c =>
            match getInputLink g parent c with
            | none => bypassLoop g ty fuel (some parent) none
            | some l2 =>
              match getInputNode g parent c with
              | none => bypassLoop g ty fuel none (some l2)
              | some p2 => bypassLoop g ty fuel (some p2) (some l2)
    else BypassResult.done (some parent) link

/-- The post-loop recording step (app.ts lines 1175-1182): if the final link
is non-null, apply the final parent's optional `updateLink` rewrite and record
the `[String(origin_id), origin_slot]` pair. -/
def recordResolved (pF : Option NodeM) (lF : Option LinkM) : Option (String × Nat) :=
  match lF with
  | none => none
  | some l =>
    match pF with
    | some p =>
      match p.updateLink with
      | some f =>
        match f l with
        | some l2 => some (toString l2.origin_id, l2.origin_slot)
        | none => none
      | none => some (toString l.origin_id, l.origin_slot)
    | none => some (toString l.origin_id, l.origin_slot)

/-- Resolution of one node input (app.ts lines 1138-1183): direct parent and
link, the bypass loop, then `recordResolved`.  `none` = the loop did not
finish (fuel out, or a JavaScript TypeError); `some none` = no reference
recorded (the widget value, if any, stays); `some (some pair)` = reference
recorded. -/
def resolveInput (g : GraphM) (node : NodeM) (i : Nat) (fuel : Nat) :
    Option (Option (String × Nat)) :=
  match getInputNode g node i with
  | none => some none
  | some parent0 =>
    let ty := match node.inputs.get? i with
              | some s => s.type
              | none => ""
    match bypassLoop g ty fuel (some parent0) (getInputLink g node i) with
    | BypassResult.fuelOut => none
    | BypassResult.crash => none
    | BypassResult.done pF lF => some (recordResolved pF lF)

/-- Widget serialization of one node (app.ts lines 1126-1135): every widget
with `options.serialize !== false` contributes `inputs[widget.name] =
serializeValue ?? value`. -/
def widgetInputs (n : NodeM) : List (String × InV) :=
  n.widgets.foldl
    (fun acc w =>
      if w.serialize then objInsert acc w.name (InV.val (w.serializeValue.getD w.value))
      else acc)
    []

/-- The input object of one compiled step: widget values first, then for every
declared input slot the resolved reference pair, if any, overwrites the entry
under `node.inputs[i].name` (app.ts lines 1122-1184).  `none` if a resolution
did not finish. -/
def nodeInputs (g : GraphM) (n : NodeM) (fuel : Nat) : Option (List (String × InV)) :=
  (List.range n.inputs.length).foldlM
    (fun acc i =>
      match resolveInput g n i fuel with
      | none => none
      | some none => some acc
      | some (some (oid, oslot)) =>
        match n.inputs.get? i with
        | some s => some (objInsert acc s.name (InV.ref oid oslot))
        | none => some acc)
    (widgetInputs n)

/-- The step-building pass of `graphToPrompt` (app.ts lines 1109-1200): walk
the planned order, skip virtual nodes and nodes whose mode is 2 or 4, and
record `output[String(node.id)] = { class_type, inputs, _meta? }`.  Group
nodes (the optional `getInnerNodes` capability, provided by an extension
outside these sources) are not modeled: every node stands for itself, exactly
the `innerNodes = [outerNode]` branch of the source. -/
def buildSteps (g : GraphM) (fuel : Nat) (devMode : Bool) :
    Option (List (String × WorkflowStep)) :=
  g.nodes.foldlM
    (fun out n =>
      if n.isVirtualNode then some out
      else if n.mode = 2 ∨ n.mode = 4 then some out
      else
        (nodeInputs g n fuel).map (fun inp =>
          objInsert out (toString n.id)
            ⟨n.comfyClass, inp, if devMode then some n.title else none⟩))
    []

/-- The per-input-entry predicate of the cleanup pass (app.ts lines 1204-1218):
an entry is kept unless it is a two-element `[originId, slot]` array whose
origin id is not a key of the compiled output. -/
def keepInput (keys : List String) (q : String × InV) : Bool :=
  match q.2 with
  | InV.ref oid _ => keys.contains oid
  | InV.val _ => true

/-- The cleanup pass: delete every reference pair whose origin id is not a key
of the compiled step set.  Steps themselves are never deleted, so the key set
is that of the input. -/
def cleanupOutput (o : List (String × WorkflowStep)) : List (String × WorkflowStep) :=
  o.map (fun p => (p.1, ⟨p.2.class_type, p.2.inputs.filter (keepInput (o.map Prod.fst)), p.2.meta⟩))

/-- The pre-serialization callback phase of `graphToPrompt` (app.ts lines
1084-1103): every widget's `beforeQueued` callback runs and may update the
widget's own value (the archetype is re-randomizing a seed before every
generation).  Virtual nodes' `applyToGraph` side effects are the same kind of
pre-compile graph mutation and are not separately modeled. -/
def mutatePhase (g : GraphM) : GraphM :=
  ⟨g.nodes.map (fun n =>
    { n with
      widgets := n.widgets.map (fun w =>
        match w.beforeQueued with
        | some f => { w with value := f w.value }
        | none => w) }),
   g.links⟩

/-- `graphToPrompt` (app.ts lines 1083-1221): run the callback phase, then
build the steps in execution order, then run the cleanup pass.  Returns the
graph as mutated by the callback phase (the serialized `workflow` is taken
from it) and the compiled output (`none` when a bypass resolution did not
finish within `fuel`). -/
def graphToPrompt (g : GraphM) (fuel : Nat) (devMode : Bool) :
    GraphM × Option (List (String × WorkflowStep)) :=
  let g2 := mutatePhase g
  (g2, (buildSteps g2 fuel devMode).map cleanupOutput)

/-- Decidable check of the pruning invariant: every reference pair of every
step points at a key of the same output. -/
def selfContainedOut (out : List (String × WorkflowStep)) : Bool :=
  out.all (fun p => p.2.inputs.all (keepInput (out.map Prod.fst)))

/-- Per-node validation errors as returned by the backend
(`node_errors`: node id → error detail). -/
def NodeErrs : Type := List (String × String)

instance : DecidableEq NodeErrs := by
  unfold NodeErrs
  infer_instance

/-- The outcome of one batch unit, chosen by the environment: the compile
(`graphToPrompt`) throws; or the submission resolves (with optional
`node_errors`); or the submission rejects, with `response` optionally present
and, inside it, `node_errors` optionally present. -/
inductive UnitOutcome where
  | throwCompile
  | ok (nodeErrors : Option NodeErrs)
  | fail (response : Option (Option NodeErrs))

/-- Observable events of the drain loop's unit processing, in program order:
`graphToPrompt` ran for unit `i`; `api.queuePrompt` was attempted for unit
`i`; the `afterQueued` widget callbacks ran after unit `i`. -/
inductive UnitEvent where
  | compiled (i : Nat)
  | submitted (i : Nat)
  | ranAfterQueued (i : Nat)
deriving DecidableEq

/-- The `for (let i = 0; i < batchCount; i++)` body of `queuePrompt` (app.ts
lines 1272-1316), processing the units from index `i` with `rem` units left,
threading `this.lastNodeErrors`.  Per unit: compile (a throw propagates out of
the drain loop — third component `true`); submit; on resolve record
`res.node_errors`; on reject record `err.response.node_errors` when
`err.response` is present and `break` out of the batch; after a non-rejected
unit run the `afterQueued` callbacks before the next unit's compilation. -/
def processUnits (env : Nat → UnitOutcome) : Nat → Nat → Option NodeErrs →
    List UnitEvent × Option NodeErrs × Bool
  | _, 0, ne => ([], ne, false)
  | i, rem+1, ne =>
    match env i with
    | UnitOutcome.throwCompile => ([UnitEvent.compiled i], ne, true)
    | UnitOutcome.ok ne2 =>
      let rest := processUnits env (i+1) rem ne2
      (UnitEvent.compiled i :: UnitEvent.submitted i :: UnitEvent.ranAfterQueued i :: rest.1,
       rest.2)
    | UnitOutcome.fail resp =>
      ([UnitEvent.compiled i, UnitEvent.submitted i], resp.getD ne, false)

/-- A pending queue entry (`QueueItem`): `{ number, batchCount }`. -/
structure QueueItem where
  number : Int
  batchCount : Nat
deriving DecidableEq

/-- The order in which the drain loop consumes requests.  The source pops with
`this.#queueItems.pop()` — the LAST element of the pending array — while
enqueueing pushes at the end; `arrivals.headD []` are the requests pushed by
`queuePrompt` calls that arrive while the current request is being processed
(they only append, the single-flight flag being held). -/
def drainOrder (pending : List QueueItem) (arrivals : List (List QueueItem)) :
    List QueueItem :=
  match h : pending.getLast? with
  | none => []
  | some r => r :: drainOrder (pending.dropLast ++ arrivals.headD []) arrivals.tail
termination_by pending.length + (((arrivals.map List.length).sum) + arrivals.length)
decreasing_by
  obtain ⟨ys, rfl⟩ := List.getLast?_eq_some_iff.mp h
  cases arrivals <;> simp [List.dropLast_concat] <;> omega

/-- Everything the drain loop produced: the per-request unit-event traces in
processing order, the final `lastNodeErrors`, whether an exception escaped
(a compile throw — submissions' rejections are caught), and the pending items
left behind at exit. -/
structure DrainResult where
  trace : List (QueueItem × List UnitEvent)
  lastNodeErrors : Option NodeErrs
  threw : Bool
  leftover : List QueueItem

/-- The `while (this.#queueItems.length)` drain loop of `queuePrompt` (app.ts
lines 1267-1318): pop the last pending request, process its batch units; a
compile throw aborts the drain (the `finally` still releases the flag); a
rejected unit only ends its own batch, the loop continues with the next
request.  `arrivals` injects the requests enqueued during each processed
request. -/
def drainLoop (env : QueueItem → Nat → UnitOutcome) (pending : List QueueItem)
    (arrivals : List (List QueueItem)) (ne : Option NodeErrs) : DrainResult :=
  match h : pending.getLast? with
  | none => ⟨[], ne, false, []⟩
  | some r =>
    let pr := processUnits (env r) 0 r.batchCount ne
    if pr.2.2 then ⟨[(r, pr.1)], pr.2.1, true, pending.dropLast⟩
    else
      let res := drainLoop env (pending.dropLast ++ arrivals.headD []) arrivals.tail pr.2.1
      ⟨(r, pr.1) :: res.trace, res.lastNodeErrors, res.threw, res.leftover⟩
termination_by pending.length + (((arrivals.map List.length).sum) + arrivals.length)
decreasing_by
  obtain ⟨ys, rfl⟩ := List.getLast?_eq_some_iff.mp h
  cases arrivals <;> simp [List.dropLast_concat] <;> omega

/-- The queue-relevant state of the app: `#queueItems`, `#processingQueue`,
`lastNodeErrors`. -/
structure QState where
  queueItems : List QueueItem
  processingQueue : Bool
  lastNodeErrors : Option NodeErrs
deriving DecidableEq

/-- `queuePrompt` (app.ts lines 1255-1323): push the request; if the
single-flight flag is held, return at once — otherwise take the flag, null
`lastNodeErrors`, drain (the `try`), and release the flag (`finally`) whether
or not the drain threw. -/
def queuePrompt (env : QueueItem → Nat → UnitOutcome) (s : QState) (number : Int)
    (batchCount : Nat) (arrivals : List (List QueueItem)) : QState :=
  let s1 : QState := { s with queueItems := s.queueItems ++ [⟨number, batchCount⟩] }
  if s1.processingQueue then s1
  else
    let res := drainLoop env s1.queueItems arrivals none
    ⟨res.leftover, false, res.lastNodeErrors⟩

/-- Increment a numeric widget value; a concrete `beforeQueued` callback (the
"advance the seed before every generation" archetype). -/
def incSeed : JVal → JVal
  | JVal.num n => JVal.num (n + 1)
  | v => v

/- Concrete graphs used as test vectors and counterexamples. -/

/-- Link `D.out0 → A.in0`, table id 10. -/
def linkDA : LinkM := ⟨1, 0, 2, 0⟩

/-- Link `A.out0 → B.in0`, table id 11. -/
def linkAB : LinkM := ⟨2, 0, 3, 0⟩

/-- Link `B.out0 → C.in0`, table id 12. -/
def linkBC : LinkM := ⟨3, 0, 4, 0⟩

/-- `D`: a normal producer node. -/
def nodeD : NodeM := ⟨1, "Producer", "D", 0, false, [], [], none⟩

/-- `A`: a virtual pass-through node fed by `D`. -/
def nodeA : NodeM := ⟨2, "Reroute", "A", 0, true, [⟨"", "T", some 10⟩], [], none⟩

/-- `B`: a muted (mode 4) node with a type-compatible input fed by `A`. -/
def nodeB : NodeM := ⟨3, "Muted", "B", 4, false, [⟨"x", "T", some 11⟩], [], none⟩

/-- `C`: a normal consumer whose input 0 links to `B`. -/
def nodeC : NodeM := ⟨4, "Consumer", "C", 0, false, [⟨"c", "T", some 12⟩], [], none⟩

/-- The bypass-chain graph `D → A(virtual) → B(muted) → C`. -/
def gBypass : GraphM := ⟨[nodeD, nodeA, nodeB, nodeC], [(10, linkDA), (11, linkAB), (12, linkBC)]⟩

/-- Link `VB.out0 → VA.in0`, table id 20. -/
def linkBA2 : LinkM := ⟨3, 0, 2, 0⟩

/-- Link `VA.out0 → VB.in0`, table id 21. -/
def linkAB2 : LinkM := ⟨2, 0, 3, 0⟩

/-- Link `VA.out0 → CC.in0`, table id 22. -/
def linkAC2 : LinkM := ⟨2, 0, 4, 0⟩

/-- `VA`: a virtual node whose input is fed by `VB`. -/
def nodeVA : NodeM := ⟨2, "Reroute", "VA", 0, true, [⟨"", "*", some 20⟩], [], none⟩

/-- `VB`: a virtual node whose input is fed by `VA` — a two-node virtual cycle. -/
def nodeVB : NodeM := ⟨3, "Reroute", "VB", 0, true, [⟨"", "*", some 21⟩], [], none⟩

/-- `CC`: a normal consumer whose input links into the virtual cycle. -/
def nodeCC : NodeM := ⟨4, "Consumer", "CC", 0, false, [⟨"c", "*", some 22⟩], [], none⟩

/-- A malformed bypass chain: a cycle of two virtual nodes, reachable from the
normal node `CC`. -/
def gCycle : GraphM := ⟨[nodeVA, nodeVB, nodeCC], [(20, linkBA2), (21, linkAB2), (22, linkAC2)]⟩

/-- A single normal node carrying a seed widget whose `beforeQueued` callback
advances the value on every `graphToPrompt` call. -/
def nodeSeed : NodeM :=
  ⟨7, "KSampler", "K", 0, false, [], [⟨"seed", JVal.num 0, true, none, some incSeed⟩], none⟩

/-- Graph whose compile output changes between two successive calls. -/
def gSeed : GraphM := ⟨[nodeSeed], []⟩

/-- A single plain node with one callback-free widget. -/
def nodePlain : NodeM :=
  ⟨5, "LoadImage", "L", 0, false, [], [⟨"image", JVal.str "a.png", true, none, none⟩], none⟩

/-- A callback-free one-node graph. -/
def gPlain : GraphM := ⟨[nodePlain], []⟩

/- ## Helper lemmas -/

theorem cleanup_keys (o : List (String × WorkflowStep)) :
    (cleanupOutput o).map Prod.fst = o.map Prod.fst := by
  simp [cleanupOutput]

theorem selfContained_cleanup (o : List (String × WorkflowStep)) :
    selfContainedOut (cleanupOutput o) = true := by
  simp only [selfContainedOut, cleanup_keys]
  simp only [cleanupOutput, List.all_map, List.all_eq_true]
  intro p _
  simp only [Function.comp]
  rw [List.all_eq_true]
  intro q hq
  exact (List.mem_filter.mp hq).2

theorem remap_condAvg : remapType "ConditioningAverage " = "ConditioningAverage" := by decide

theorem remap_t2i : remapType "T2IAdapterLoader" = "ControlNetLoader" := by decide

theorem remap_sdv : remapType "SDV_img2vid_Conditioning" = "SVD_img2vid_Conditioning" := by decide

theorem sanitize_condAvg : sanitizeNodeName "ConditioningAverage" = "ConditioningAverage" := by
  decide

theorem sanitize_cnl : sanitizeNodeName "ControlNetLoader" = "ControlNetLoader" := by decide

theorem sanitize_svd :
    sanitizeNodeName "SVD_img2vid_Conditioning" = "SVD_img2vid_Conditioning" := by decide

/- ## Claim theorems -/

/-- C1: every compiled output produced by `graphToPrompt` is self-contained:
after the cleanup pass, every `[originId, slot]` reference pair's origin id is
a key of the same output — no dangling references survive. -/
theorem graphToPrompt_self_contained (g : GraphM) (fuel : Nat) (dev : Bool)
    (out : List (String × WorkflowStep))
    (h : (graphToPrompt g fuel dev).2 = some out) :
    selfContainedOut out = true := by
  simp only [graphToPrompt, Option.map_eq_some'] at h
  obtain ⟨o, _, rfl⟩ := h
  exact selfContained_cleanup o

/-- Witness for C1 at a concrete one-node graph. -/
theorem graphToPrompt_self_contained_inst :
    selfContainedOut
      [("5", ⟨"LoadImage", [("image", InV.val (JVal.str "a.png"))], none⟩)] = true :=
  graphToPrompt_self_contained gPlain 1 false
    [("5", ⟨"LoadImage", [("image", InV.val (JVal.str "a.png"))], none⟩)] (by decide)

/-- C9: `loadGraphData` normalizes the legacy type spellings once, on the
document that is then configured: `"ConditioningAverage "` (trailing space)
becomes `"ConditioningAverage"`, `"T2IAdapterLoader"` becomes
`"ControlNetLoader"`, `"SDV_img2vid_Conditioning"` becomes
`"SVD_img2vid_Conditioning"` — whether or not the corrected name is
registered (the sanitizer is the identity on the corrected names) — and the
configured node list is exactly the per-node normalization of the input. -/
theorem loadGraphData_normalizes_types (registered : String → Bool) :
    (∀ t, t = "ConditioningAverage " →
       normalizeType registered t = "ConditioningAverage")
    ∧ (∀ t, t = "T2IAdapterLoader" → normalizeType registered t = "ControlNetLoader")
    ∧ (∀ t, t = "SDV_img2vid_Conditioning" →
         normalizeType registered t = "SVD_img2vid_Conditioning")
    ∧ (∀ doc, (loadGraphData registered doc).1.nodes =
         doc.nodes.map (fun n => ⟨normalizeType registered n.type⟩)) := by
  refine ⟨?_, ?_, ?_, ?_⟩
  · rintro t rfl
    unfold normalizeType
    rw [remap_condAvg]
    cases h : registered "ConditioningAverage" <;> simp [h, sanitize_condAvg]
  · rintro t rfl
    unfold normalizeType
    rw [remap_t2i]
    cases h : registered "ControlNetLoader" <;> simp [h, sanitize_cnl]
  · rintro t rfl
    unfold normalizeType
    rw [remap_sdv]
    cases h : registered "SVD_img2vid_Conditioning" <;> simp [h, sanitize_svd]
  · intro doc
    simp [loadGraphData]

/-- Witness for C9: the trailing-space typo is fixed even when nothing is
registered. -/
theorem loadGraphData_normalizes_inst :
    normalizeType (fun _ => false) "ConditioningAverage " = "ConditioningAverage" :=
  (loadGraphData_normalizes_types (fun _ => false)).1 "ConditioningAverage " rfl

/-- C10: `registerExtension` throws (and leaves the extension list unchanged)
when the extension has no name, throws (list unchanged) when an extension of
the same name is already registered, and otherwise appends the extension. -/
theorem registerExtension_spec (exts : List ComfyExtensionM) (ext : ComfyExtensionM) :
    (ext.name = none →
       registerExtension exts ext = (exts, some "Extensions must have a 'name' property."))
    ∧ (∀ nm, ext.name = some nm → nm ≠ "" → (∃ e ∈ exts, e.name = ext.name) →
         registerExtension exts ext = (exts, some "Extension already registered."))
    ∧ (∀ nm, ext.name = some nm → nm ≠ "" → (∀ e ∈ exts, e.name ≠ ext.name) →
         registerExtension exts ext = (exts ++ [ext], none)) := by
  refine ⟨?_, ?_, ?_⟩
  · intro h
    simp [registerExtension, h]
  · rintro nm h hne hdup
    have hf : (exts.find? (fun e => e.name = ext.name)).isSome := by
      rw [List.find?_isSome]
      obtain ⟨e, he, heq⟩ := hdup
      exact ⟨e, he, by simp [heq]⟩
    unfold registerExtension
    rw [if_neg (by simp [h, hne]), if_pos hf]
  · rintro nm h hne hnew
    have hf : exts.find? (fun e => e.name = ext.name) = none := by
      rw [List.find?_eq_none]
      intro e he
      simp [hnew e he]
    unfold registerExtension
    rw [if_neg (by simp [h, hne]), if_neg (by simp [hf])]

/-- Witness for C10: a nameless extension is rejected and the list stays
empty; a fresh named extension is appended. -/
theorem registerExtension_inst :
    registerExtension [] ⟨none⟩ = ([], some "Extensions must have a 'name' property.")
    ∧ registerExtension [] ⟨some "a"⟩ = ([⟨some "a"⟩], none) :=
  ⟨(registerExtension_spec [] ⟨none⟩).1 rfl,
   (registerExtension_spec [] ⟨some "a"⟩).2.2 "a" rfl (by decide) (by simp)⟩

/-- C5: the bypass-resolution behavior of `graphToPrompt`, as a conjunction of
the loop's defining behaviors plus an end-to-end chain evaluation:
(1) a virtual producer is skipped through its internal input-to-output
mapping; (2) a muted producer is skipped through a type-compatible input of
its own; (3) the input at the same slot index as the bypassed link is
preferred; (4) otherwise the first type match in declaration order is taken;
(5) a producer that is neither virtual nor muted ends the loop with the last
link found; (6) a muted producer with no type-compatible input ends the loop
with the last producer/link found rather than raising an error; and (7) on
the chain `D → A(virtual) → B(muted, type-compatible) → C`, resolving `C`'s
input records a reference to `D`. -/
theorem graphToPrompt_bypass_resolution :
    (∀ (g : GraphM) (ty : String) (fuel : Nat) (p : NodeM) (l l2 : LinkM) (p2 : NodeM),
       p.isVirtualNode = true →
       getInputLink g p l.origin_slot = some l2 →
       getInputNode g p l2.target_slot = some p2 →
       bypassLoop g ty (fuel+1) (some p) (some l) = bypassLoop g ty fuel (some p2) (some l2))
    ∧ (∀ (g : GraphM) (ty : String) (fuel : Nat) (p : NodeM) (l : LinkM) (c : Nat)
         (l2 : LinkM) (p2 : NodeM),
       p.isVirtualNode = false → p.mode = 4 →
       findBypassSlot p ty l.origin_slot = some c →
       getInputLink g p c = some l2 →
       getInputNode g p c = some p2 →
       bypassLoop g ty (fuel+1) (some p) (some l) = bypassLoop g ty fuel (some p2) (some l2))
    ∧ (∀ (p : NodeM) (ty : String) (s : Nat) (sl : InputSlotM),
       p.inputs.get? s = some sl → sl.type = ty →
       findBypassSlot p ty s = some s)
    ∧ (∀ (p : NodeM) (ty : String) (s : Nat),
       (∀ sl, p.inputs.get? s = some sl → sl.type ≠ ty) →
       findBypassSlot p ty s =
         (List.range p.inputs.length).find?
           (fun c =>
             match p.inputs.get? c with
             | some sl2 => sl2.type == ty
             | none => false))
    ∧ (∀ (g : GraphM) (ty : String) (fuel : Nat) (p : NodeM) (l : Option LinkM),
       p.isVirtualNode = false → p.mode ≠ 4 →
       bypassLoop g ty (fuel+1) (some p) l = BypassResult.done (some p) l)
    ∧ (∀ (g : GraphM) (ty : String) (fuel : Nat) (p : NodeM) (l : LinkM),
       p.isVirtualNode = false → p.mode = 4 →
       findBypassSlot p ty l.origin_slot = none →
       bypassLoop g ty (fuel+1) (some p) (some l) = BypassResult.done (some p) (some l))
    ∧ resolveInput gBypass nodeC 0 8 = some (some ("1", 0)) := by
  refine ⟨?_, ?_, ?_, ?_, ?_, ?_, ?_⟩
  · intro g ty fuel p l l2 p2 hv hl hn
    simp [bypassLoop, hv, hl, hn]
  · intro g ty fuel p l c l2 p2 hv hm hf hl hn
    simp [bypassLoop, hv, hm, hf, hl, hn]
  · intro p ty s sl hs hty
    unfold findBypassSlot
    rw [List.find?_cons]
    simp only [hs, hty]
    simp
  · intro p ty s hnm
    unfold findBypassSlot
    rw [List.find?_cons]
    cases hg : p.inputs.get? s with
    | none => simp only [hg]
    | some sl =>
      have hne := hnm sl hg
      simp only [hg, beq_eq_false_iff_ne.mpr hne]
  · intro g ty fuel p l hv hm
    simp [bypassLoop, hv, hm]
  · intro g ty fuel p l hv hm hf
    simp [bypassLoop, hv, hm, hf]
  · decide

/-- Witness for C5: one concrete virtual-skip step on the bypass chain. -/
theorem graphToPrompt_bypass_resolution_inst :
    bypassLoop gBypass "T" 3 (some nodeA) (some linkAB) =
      bypassLoop gBypass "T" 2 (some nodeD) (some linkDA) :=
  graphToPrompt_bypass_resolution.1 gBypass "T" 2 nodeA linkAB linkDA nodeD rfl rfl rfl

/-- Two-state invariant of the virtual cycle: from either state of the
`VA ↔ VB` cycle, the bypass loop exhausts any amount of fuel. -/
theorem cycPair (f : Nat) :
    bypassLoop gCycle "*" f (some nodeVB) (some linkBA2) = BypassResult.fuelOut
    ∧ bypassLoop gCycle "*" f (some nodeVA) (some linkAB2) = BypassResult.fuelOut := by
  induction f with
  | zero => exact ⟨rfl, rfl⟩
  | succ n ih => exact ⟨ih.2, ih.1⟩

/-- C7: the bypass-resolution loop does NOT terminate on every input graph:
on the malformed chain where `CC`'s input reaches the two-node virtual cycle
`VA ↔ VB`, resolution fails to finish for every iteration bound — the source
loop (which has no cycle guard) runs forever. -/
theorem bypassLoop_cycle_diverges (fuel : Nat) :
    resolveInput gCycle nodeCC 0 fuel = none := by
  cases fuel with
  | zero => rfl
  | succ n =>
    have h2 : bypassLoop gCycle "*" (n+1) (some nodeVA) (some linkAC2) =
        BypassResult.fuelOut := (cycPair n).1
    have h0 : getInputNode gCycle nodeCC 0 = some nodeVA := rfl
    have h1 : getInputLink gCycle nodeCC 0 = some linkAC2 := rfl
    simp only [resolveInput, h0, h1]
    rw [show (match nodeCC.inputs.get? 0 with
              | some s => s.type
              | none => "") = "*" from rfl]
    rw [h2]

/- ## Queue lemmas -/

theorem drainOrder_nil (arr : List (List QueueItem)) : drainOrder [] arr = [] := by
  rw [drainOrder]
  rfl

theorem drainOrder_eq_cons (ys : List QueueItem) (r : QueueItem)
    (arr : List (List QueueItem)) :
    drainOrder (ys ++ [r]) arr = r :: drainOrder (ys ++ arr.headD []) arr.tail := by
  rw [drainOrder]
  split
  · next h => simp [List.getLast?_concat] at h
  · next r2 h =>
    rw [List.getLast?_concat] at h
    obtain rfl : r = r2 := by injection h
    rw [List.dropLast_concat]

theorem drainOrder_perm (pending : List QueueItem) (arrivals : List (List QueueItem)) :
    (drainOrder pending arrivals).Perm
      (pending ++ (arrivals.take (drainOrder pending arrivals).length).flatten) := by
  induction pending, arrivals using drainOrder.induct with
  | case1 pending arrivals h =>
    rw [List.getLast?_eq_none_iff] at h
    subst h
    simp [drainOrder_nil]
  | case2 pending arrivals r h ih =>
    obtain ⟨ys, rfl⟩ := List.getLast?_eq_some_iff.mp h
    rw [drainOrder_eq_cons]
    simp only [List.dropLast_concat] at ih
    cases arrivals with
    | nil =>
      simp only [List.headD_nil, List.tail_nil, List.append_nil, List.take_nil,
        List.flatten_nil] at ih ⊢
      refine (ih.cons _).trans ?_
      exact (List.perm_append_singleton _ _).symm
    | cons a arr =>
      simp only [List.headD_cons, List.tail_cons, List.length_cons,
        List.take_succ_cons, List.flatten_cons] at ih ⊢
      refine (ih.cons _).trans ?_
      simp only [List.append_assoc]
      exact List.perm_middle.symm

theorem drainOrder_two (r1 r2 : QueueItem) : drainOrder [r1] [[r2]] = [r1, r2] := by
  have h1 := drainOrder_eq_cons [] r1 [[r2]]
  have h2 := drainOrder_eq_cons [] r2 []
  simp only [List.nil_append, List.headD_cons, List.tail_cons, List.headD_nil,
    List.tail_nil, List.append_nil] at h1 h2
  rw [h1, h2, drainOrder_nil]

theorem processUnits_noThrow (env : Nat → UnitOutcome)
    (henv : ∀ i, env i ≠ UnitOutcome.throwCompile) :
    ∀ rem i ne, (processUnits env i rem ne).2.2 = false := by
  intro rem
  induction rem with
  | zero => intro i ne; rfl
  | succ m ih =>
    intro i ne
    cases h : env i with
    | throwCompile => exact absurd h (henv i)
    | ok ne2 => simp [processUnits, h, ih]
    | fail resp => simp [processUnits, h]

theorem drainLoop_nil (env : QueueItem → Nat → UnitOutcome)
    (arr : List (List QueueItem)) (ne : Option NodeErrs) :
    drainLoop env [] arr ne = ⟨[], ne, false, []⟩ := by
  rw [drainLoop]
  rfl

theorem drainLoop_eq_cons (env : QueueItem → Nat → UnitOutcome) (ys : List QueueItem)
    (r : QueueItem) (arr : List (List QueueItem)) (ne : Option NodeErrs) :
    drainLoop env (ys ++ [r]) arr ne =
      (let pr := processUnits (env r) 0 r.batchCount ne
       if pr.2.2 then ⟨[(r, pr.1)], pr.2.1, true, ys⟩
       else
         let res := drainLoop env (ys ++ arr.headD []) arr.tail pr.2.1
         ⟨(r, pr.1) :: res.trace, res.lastNodeErrors, res.threw, res.leftover⟩) := by
  rw [drainLoop]
  split
  · next h => simp [List.getLast?_concat] at h
  · next r2 h =>
    rw [List.getLast?_concat] at h
    obtain rfl : r = r2 := by injection h
    rw [List.dropLast_concat]

theorem drainLoop_trace_fst (env : QueueItem → Nat → UnitOutcome)
    (henv : ∀ r i, env r i ≠ UnitOutcome.throwCompile)
    (pending : List QueueItem) (arrivals : List (List QueueItem)) :
    ∀ ne, (drainLoop env pending arrivals ne).trace.map Prod.fst =
      drainOrder pending arrivals := by
  induction pending, arrivals using drainOrder.induct with
  | case1 pending arrivals h =>
    rw [List.getLast?_eq_none_iff] at h
    subst h
    intro ne
    rw [drainLoop_nil, drainOrder_nil]
    rfl
  | case2 pending arrivals r h ih =>
    obtain ⟨ys, rfl⟩ := List.getLast?_eq_some_iff.mp h
    simp only [List.dropLast_concat] at ih
    intro ne
    rw [drainLoop_eq_cons, drainOrder_eq_cons]
    simp only [processUnits_noThrow (env r) (henv r), if_false, Bool.false_eq_true]
    simp only [List.map_cons]
    rw [ih]

theorem drainLoop_leftover (env : QueueItem → Nat → UnitOutcome)
    (pending : List QueueItem) (arrivals : List (List QueueItem)) :
    ∀ ne, (drainLoop env pending arrivals ne).threw = false →
      (drainLoop env pending arrivals ne).leftover = [] := by
  induction pending, arrivals using drainOrder.induct with
  | case1 pending arrivals h =>
    rw [List.getLast?_eq_none_iff] at h
    subst h
    intro ne _
    rw [drainLoop_nil]
  | case2 pending arrivals r h ih =>
    obtain ⟨ys, rfl⟩ := List.getLast?_eq_some_iff.mp h
    simp only [List.dropLast_concat] at ih
    intro ne
    rw [drainLoop_eq_cons]
    cases hpr : (processUnits (env r) 0 r.batchCount ne).2.2 with
    | true => simp [hpr]
    | false =>
      simp only [hpr, if_false, Bool.false_eq_true]
      exact ih _

theorem processUnits_firstFail :
    ∀ (j : Nat) (env : Nat → UnitOutcome) (i rem : Nat) (ne : Option NodeErrs)
      (neJ : NodeErrs),
      (∀ k, k < j → ∃ x, env (i + k) = UnitOutcome.ok x) →
      env (i + j) = UnitOutcome.fail (some (some neJ)) →
      j < rem →
      ((∀ u, UnitEvent.submitted u ∈ (processUnits env i rem ne).1 ↔ (i ≤ u ∧ u ≤ i + j))
       ∧ (processUnits env i rem ne).2.1 = some neJ
       ∧ (processUnits env i rem ne).2.2 = false) := by
  intro j
  induction j with
  | zero =>
    intro env i rem ne neJ _ hfail hlt
    cases rem with
    | zero => omega
    | succ m =>
      rw [Nat.add_zero] at hfail
      refine ⟨?_, ?_, ?_⟩
      · intro u
        simp [processUnits, hfail]
        omega
      · simp [processUnits, hfail, Option.getD]
      · simp [processUnits, hfail]
  | succ jm ih =>
    intro env i rem ne neJ hok hfail hlt
    cases rem with
    | zero => omega
    | succ m =>
      obtain ⟨x, hx⟩ := hok 0 (Nat.succ_pos jm)
      rw [Nat.add_zero] at hx
      have hok2 : ∀ k, k < jm → ∃ y, env (i + 1 + k) = UnitOutcome.ok y := by
        intro k hk
        have := hok (k + 1) (by omega)
        rwa [show i + (k + 1) = i + 1 + k by omega] at this
      have hfail2 : env (i + 1 + jm) = UnitOutcome.fail (some (some neJ)) := by
        rwa [show i + (jm + 1) = i + 1 + jm by omega] at hfail
      have hrec := ih env (i + 1) m x neJ hok2 hfail2 (by omega)
      refine ⟨?_, ?_, ?_⟩
      · intro u
        simp only [processUnits, hx]
        simp only [List.mem_cons]
        rw [hrec.1 u]
        constructor
        · rintro (h | h | h | h)
          · exact absurd h (by simp)
          · obtain rfl : u = i := by injection h
            omega
          · exact absurd h (by simp)
          · omega
        · intro hu
          by_cases hui : u = i
          · subst hui
            exact Or.inr (Or.inl rfl)
          · right; right; right; omega
      · simp only [processUnits, hx]
        exact hrec.2.1
      · simp only [processUnits, hx]
        exact hrec.2.2

theorem drainOrder_cex3 :
    drainOrder [⟨0,1⟩] [[⟨1,1⟩, ⟨2,1⟩]] = [⟨0,1⟩, ⟨2,1⟩, ⟨1,1⟩] := by
  have h1 := drainOrder_eq_cons [] (⟨0,1⟩ : QueueItem) [[⟨1,1⟩, ⟨2,1⟩]]
  have h2 := drainOrder_eq_cons [⟨1,1⟩] (⟨2,1⟩ : QueueItem) []
  have h3 := drainOrder_eq_cons [] (⟨1,1⟩ : QueueItem) []
  simp only [List.nil_append, List.singleton_append, List.cons_append, List.headD_cons,
    List.tail_cons, List.headD_nil, List.tail_nil, List.append_nil] at h1 h2 h3
  rw [h1, h2, h3, drainOrder_nil]

/-- Counterexample for C2: with three requests enqueued before the first drain
pops again (one starts the drain, two arrive during its processing), the drain
processes the backlog last-in-first-out — `[r0, r2, r1]`, not the enqueue
order `[r0, r1, r2]` — because `queuePrompt` pops with `Array.pop()` from the
tail of `#queueItems`. -/
theorem queuePrompt_fifo_cex :
    drainOrder [⟨0,1⟩] [[⟨1,1⟩, ⟨2,1⟩]] = [⟨0,1⟩, ⟨2,1⟩, ⟨1,1⟩]
    ∧ drainOrder [⟨0,1⟩] [[⟨1,1⟩, ⟨2,1⟩]] ≠ [⟨0,1⟩, ⟨1,1⟩, ⟨2,1⟩] :=
  ⟨drainOrder_cex3, by rw [drainOrder_cex3]; decide⟩

/-- C2 (amended): every enqueued request that the drain consumes is processed
exactly once — the processing order is a permutation of the initial pending
requests plus all arrival groups consumed while the drain ran; with exactly
two enqueue calls issued before the first drain completes, both are processed
in enqueue order; and which requests get processed does not depend on the
unit outcomes (no submission failure skips another request).  Backlogs of
three or more drain last-in-first-out (see the counterexample), so the
original unrestricted "enqueue order" claim is corrected to the two-call
case. -/
theorem queuePrompt_drain_order_amended :
    (∀ (pending : List QueueItem) (arrivals : List (List QueueItem)),
       (drainOrder pending arrivals).Perm
         (pending ++ (arrivals.take (drainOrder pending arrivals).length).flatten))
    ∧ (∀ r1 r2 : QueueItem, drainOrder [r1] [[r2]] = [r1, r2])
    ∧ (∀ env : QueueItem → Nat → UnitOutcome,
        (∀ r i, env r i ≠ UnitOutcome.throwCompile) →
        ∀ pending arrivals ne,
          (drainLoop env pending arrivals ne).trace.map Prod.fst =
            drainOrder pending arrivals) :=
  ⟨drainOrder_perm, drainOrder_two,
   fun env henv pending arrivals ne => drainLoop_trace_fst env henv pending arrivals ne⟩

/-- Witness for C2's amended theorem at a concrete environment and queue. -/
theorem queuePrompt_drain_order_inst :
    (drainLoop (fun _ _ => UnitOutcome.ok none) [⟨0,1⟩] [] none).trace.map Prod.fst =
      drainOrder [⟨0,1⟩] [] :=
  queuePrompt_drain_order_amended.2.2 (fun _ _ => UnitOutcome.ok none)
    (fun _ _ h => nomatch h) [⟨0,1⟩] [] none

/-- C3: single-flight.  A `queuePrompt` call made while a drain is in progress
only appends its request to the pending list and returns (so only one drain
loop ever runs); when no drain is in progress the call drains, and the
`finally`-released flag is clear afterwards whether or not the drain threw;
on a throw-free drain the flag release coincides with the pending list having
been emptied. -/
theorem queuePrompt_single_flight (env : QueueItem → Nat → UnitOutcome) (s : QState)
    (number : Int) (batchCount : Nat) (arrivals : List (List QueueItem)) :
    (s.processingQueue = true →
       queuePrompt env s number batchCount arrivals =
         { s with queueItems := s.queueItems ++ [⟨number, batchCount⟩] })
    ∧ (s.processingQueue = false →
       (queuePrompt env s number batchCount arrivals).processingQueue = false
       ∧ ((drainLoop env (s.queueItems ++ [⟨number, batchCount⟩]) arrivals none).threw = false →
            (queuePrompt env s number batchCount arrivals).queueItems = [])) := by
  constructor
  · intro h
    simp [queuePrompt, h]
  · intro h
    refine ⟨?_, ?_⟩
    · simp [queuePrompt, h]
    · intro ht
      simp only [queuePrompt, h, Bool.false_eq_true, if_false]
      exact drainLoop_leftover env _ arrivals none ht

/-- Witness for C3: a call under a held flag only appends; a draining call
ends with the flag released. -/
theorem queuePrompt_single_flight_inst :
    queuePrompt (fun _ _ => UnitOutcome.ok none) ⟨[], true, none⟩ 0 1 [] =
      ⟨[⟨0,1⟩], true, none⟩
    ∧ (queuePrompt (fun _ _ => UnitOutcome.ok none) ⟨[], false, none⟩ 0 1 []).processingQueue
        = false :=
  ⟨(queuePrompt_single_flight (fun _ _ => UnitOutcome.ok none) ⟨[], true, none⟩ 0 1 []).1 rfl,
   ((queuePrompt_single_flight (fun _ _ => UnitOutcome.ok none) ⟨[], false, none⟩ 0 1 []).2
      rfl).1⟩

/-- C4: if the submission of batch unit `j` rejects (earlier units resolving),
the units after `j` are never attempted, the per-node error detail of the
failure payload (when present) is recorded as `lastNodeErrors`, the exception
does not escape the drain — and which already-enqueued requests get processed
is independent of the unit outcomes, so other requests continue unaffected. -/
theorem queuePrompt_batch_abort :
    (∀ (env : Nat → UnitOutcome) (n j : Nat) (neJ : NodeErrs) (ne0 : Option NodeErrs),
       (∀ k, k < j → ∃ x, env k = UnitOutcome.ok x) →
       env j = UnitOutcome.fail (some (some neJ)) →
       j < n →
       ((∀ u, UnitEvent.submitted u ∈ (processUnits env 0 n ne0).1 ↔ u ≤ j)
        ∧ (processUnits env 0 n ne0).2.1 = some neJ
        ∧ (processUnits env 0 n ne0).2.2 = false))
    ∧ (∀ env2 : QueueItem → Nat → UnitOutcome,
        (∀ r i, env2 r i ≠ UnitOutcome.throwCompile) →
        ∀ pending arrivals ne,
          (drainLoop env2 pending arrivals ne).trace.map Prod.fst =
            drainOrder pending arrivals) := by
  constructor
  · intro env n j neJ ne0 hok hfail hlt
    have h := processUnits_firstFail j env 0 n ne0 neJ
      (by intro k hk; simpa using hok k hk)
      (by simpa using hfail) hlt
    refine ⟨?_, h.2.1, h.2.2⟩
    intro u
    rw [h.1 u]
    omega
  · exact fun env2 henv pending arrivals ne =>
      drainLoop_trace_fst env2 henv pending arrivals ne

/-- Witness for C4 at the spec's scenario: batch count 3, submission 1 rejects
with node-error detail — submissions 2 and 3 are never attempted and the
detail is recorded. -/
theorem queuePrompt_batch_abort_inst :
    (UnitEvent.submitted 1 ∈
        (processUnits
          (fun i => if i = 0 then UnitOutcome.fail (some (some [("1", "boom")]))
                    else UnitOutcome.ok none) 0 3 none).1
      ↔ (1 : Nat) ≤ 0)
    ∧ (processUnits
        (fun i => if i = 0 then UnitOutcome.fail (some (some [("1", "boom")]))
                  else UnitOutcome.ok none) 0 3 none).2.1 = some [("1", "boom")] :=
  ⟨((queuePrompt_batch_abort.1
      (fun i => if i = 0 then UnitOutcome.fail (some (some [("1", "boom")]))
                else UnitOutcome.ok none) 3 0 [("1", "boom")] none
      (fun k hk => absurd hk (by omega)) rfl (by omega)).1 1),
   (queuePrompt_batch_abort.1
      (fun i => if i = 0 then UnitOutcome.fail (some (some [("1", "boom")]))
                else UnitOutcome.ok none) 3 0 [("1", "boom")] none
      (fun k hk => absurd hk (by omega)) rfl (by omega)).2.1⟩

/-- C6 (amended): after every SUCCESSFUL batch unit the `afterQueued` widget
callbacks run before the next unit's compilation (the unit's trace is exactly
compile, submit, afterQueued, then the rest); after a REJECTED unit the
callbacks are skipped, because the `break` aborting the batch precedes the
callback loop. -/
theorem queuePrompt_afterQueued_amended (env : Nat → UnitOutcome) (i rem : Nat)
    (ne : Option NodeErrs) :
    (∀ x, env i = UnitOutcome.ok x →
       processUnits env i (rem+1) ne =
         (UnitEvent.compiled i :: UnitEvent.submitted i :: UnitEvent.ranAfterQueued i ::
            (processUnits env (i+1) rem x).1,
          (processUnits env (i+1) rem x).2))
    ∧ (∀ resp, env i = UnitOutcome.fail resp →
       processUnits env i (rem+1) ne =
         ([UnitEvent.compiled i, UnitEvent.submitted i], resp.getD ne, false)) := by
  constructor
  · intro x hx
    simp [processUnits, hx]
  · intro resp hr
    simp [processUnits, hr]

/-- Witness for C6's amended theorem: a successful unit's callbacks run before
the next compilation. -/
theorem queuePrompt_afterQueued_inst :
    processUnits (fun _ => UnitOutcome.ok none) 0 2 none =
      (UnitEvent.compiled 0 :: UnitEvent.submitted 0 :: UnitEvent.ranAfterQueued 0 ::
        (processUnits (fun _ => UnitOutcome.ok none) 1 1 none).1,
       (processUnits (fun _ => UnitOutcome.ok none) 1 1 none).2) :=
  (queuePrompt_afterQueued_amended (fun _ => UnitOutcome.ok none) 0 1 none).1 none rfl

/-- Counterexample for C6: a batch of one unit whose submission rejects never
runs the `afterQueued` callbacks, contradicting "whether its submission
succeeded or failed". -/
theorem queuePrompt_afterQueued_cex :
    (processUnits (fun _ => UnitOutcome.fail none) 0 1 none).1
      = [UnitEvent.compiled 0, UnitEvent.submitted 0]
    ∧ UnitEvent.ranAfterQueued 0 ∉
        (processUnits (fun _ => UnitOutcome.fail none) 0 1 none).1 := by
  constructor
  · rfl
  · decide

/-- C8 (amended): `graphToPrompt` is idempotent on graphs the pre-compile
callback phase leaves unchanged: when `mutatePhase g = g` (no `beforeQueued`
callback rewrites a widget value), compiling twice in a row yields the same
compiled output — same node ordering, same steps, same reference pairs.  (The
unamended claim fails because `graphToPrompt` runs the callbacks before every
compile; see the counterexample.) -/
theorem graphToPrompt_idempotent_amended (g : GraphM) (fuel : Nat) (dev : Bool)
    (h : mutatePhase g = g) :
    (graphToPrompt (graphToPrompt g fuel dev).1 fuel dev).2 =
      (graphToPrompt g fuel dev).2 := by
  have h1 : (graphToPrompt g fuel dev).1 = g := by
    simp [graphToPrompt, h]
  rw [h1]

/-- Witness for C8's amended theorem on a callback-free graph. -/
theorem graphToPrompt_idempotent_inst :
    (graphToPrompt (graphToPrompt gPlain 1 false).1 1 false).2 =
      (graphToPrompt gPlain 1 false).2 :=
  graphToPrompt_idempotent_amended gPlain 1 false rfl

/-- Counterexample for C8: on a graph with a seed-advancing `beforeQueued`
callback, the second `graphToPrompt` call yields a different compiled output
than the first — compiling the same unchanged graph twice is NOT identical. -/
theorem graphToPrompt_idempotent_cex :
    (graphToPrompt (graphToPrompt gSeed 1 false).1 1 false).2 ≠
      (graphToPrompt gSeed 1 false).2 := by
  decide
